import Mathlib

/-
Shallow embedding of `src/main.py` (AIForTheColtraneChanges): a static
music-theory table `CLUSTER_MAP` and the analysis pipeline
`analyze_giant_steps`, which loads audio, tracks beats, extracts and fuses
chroma/MFCC/tonnetz features, normalizes, reduces with PCA(10), clusters with
KMeans(n_clusters = len(CLUSTER_MAP), n_init = 10, random_state = 42), and
assembles one timeline entry per beat, with one broad try/except boundary that
converts any internal failure into the empty list.

External collaborators (librosa, sklearn) are modelled as an `Env` of
functions returning `Except` values; run-to-run randomness is modelled by a
`nonce` argument standing for the ambient RNG state of a run.  Each
randomized collaborator receives an effective seed `(random_state).getD
nonce`: the source pins random_state=42 for KMeans, so its seed is always
42, but leaves PCA's random_state unset, so PCA's effective seed is the
ambient nonce itself.  Floating point times are
modelled as rationals; Python's `round(t, 2)` is modelled as round-half-even
at two decimals.
-/

namespace ColtraneChanges

/-- One row of the static music-theory table: key name, ordered chord list,
harmonic-function label (src/main.py lines 9-155). -/
structure ChordTableEntry where
  key : String
  chords : List String
  function : String
deriving DecidableEq, Repr

/-- The static cluster-to-harmony table, transcribed verbatim from
`CLUSTER_MAP` in src/main.py (keys 0..11, chord lists in source order). -/
def CLUSTER_MAP : List (Nat × ChordTableEntry) := [
  (0, ⟨"C", ["Cmaj7", "G7alt", "A7#11", "Ebmaj7", "F#dim7", "Bb7sus4"], "Tonic"⟩),
  (1, ⟨"G", ["Gmaj7", "D7#9", "B7alt", "Abmaj7", "C#dim7", "F7b13"], "Dominant"⟩),
  (2, ⟨"D", ["Dmaj7", "A7#5", "F7alt", "Bbmaj7", "Ebdim7", "G7#11"], "Subdominant"⟩),
  (3, ⟨"A", ["Amaj7", "E7+9", "C7alt", "Dbmaj7", "Fdim7", "Bb7#5"], "Modulation Bridge"⟩),
  (4, ⟨"E", ["Emaj7", "B7b9", "G7alt", "Abmaj7", "Bbdim7", "D7#9"], "Tritone Shift"⟩),
  (5, ⟨"B", ["Bmaj7", "F#7alt", "Eb7#11", "Gmaj7", "C#dim7", "D7b5"], "Primary Tonic"⟩),
  (6, ⟨"F#", ["F#maj7", "C#7+11", "A7alt", "Bbmaj7", "Ddim7", "E7#9"], "Pivot Modulation"⟩),
  (7, ⟨"Db", ["C#maj7", "G#7alt", "F7#11", "Emaj7", "Gdim7", "A7b13"], "Enharmonic Gateway"⟩),
  (8, ⟨"Ab", ["Abmaj7", "Eb7b9", "C7alt", "Bmaj7", "Dbdim7", "F7#5"], "Secondary Dominant"⟩),
  (9, ⟨"Eb", ["Ebmaj7", "Bb7#9", "G7alt", "Amaj7", "Fdim7", "D7alt"], "Tertiary Tonic"⟩),
  (10, ⟨"Bb", ["Bbmaj7", "F7alt", "D7#11", "Gbmaj7", "Adim7", "C7b9"], "Dominant Preparation"⟩),
  (11, ⟨"F", ["Fmaj7", "C7+11", "A7alt", "Dmaj7", "G#dim7", "Bb7#9"], "Cycle Completion"⟩)]

/-- Python `CLUSTER_MAP.get(cluster, None)` (src/main.py line 208). -/
def clusterMapGet (cluster : Nat) : Option ChordTableEntry :=
  CLUSTER_MAP.lookup cluster

/-- A mono waveform: ordered samples (floats modelled as rationals). -/
abbrev Waveform := List ℚ

/-- A feature matrix: list of rows of rationals. -/
abbrev Mat := List (List ℚ)

/-- One output record `{time, key, chord}` (src/main.py lines 215-219). -/
structure TimelineEntry where
  time : ℚ
  key : String
  chord : String
deriving DecidableEq, Repr

/-- Failure conditions inside the pipeline; all are funnelled through the one
`except Exception` boundary (src/main.py lines 223-225). -/
inductive PipelineError where
  | loadFailure
  | valueError
  | indexError
  | analysisFailure
deriving DecidableEq, Repr

/-- Round half to even over the rationals: the idealization of Python's
`round` on a nonnegative time value. -/
def roundHalfEven (q : ℚ) : ℤ :=
  if q - ⌊q⌋ < 1/2 then ⌊q⌋
  else if 1/2 < q - ⌊q⌋ then ⌊q⌋ + 1
  else if ⌊q⌋ % 2 = 0 then ⌊q⌋ else ⌊q⌋ + 1

/-- Python `round(t, 2)` (src/main.py line 216): round to two decimals. -/
def round2 (t : ℚ) : ℚ := (roundHalfEven (t * 100) : ℚ) / 100

/-- Truncation toward zero, numpy's `astype(int)` on a float. -/
def qtrunc (q : ℚ) : ℤ := if 0 ≤ q then ⌊q⌋ else ⌈q⌉

/-- librosa `frames_to_time(frame, sr=sr)` with the default hop length 512
(src/main.py line 173): time = frame * 512 / sr. -/
def frames_to_time (frame : Nat) (sr : Nat) : ℚ := (frame * 512 : ℚ) / sr

/-- librosa `time_to_frames([t], sr=sr)[0]` with the default hop length 512
(src/main.py line 204): truncate t*sr to samples, then floor-divide by 512. -/
def time_to_frames (t : ℚ) (sr : Nat) : ℤ := Int.fdiv (qtrunc (t * (sr : ℚ))) 512

/-- numpy's effective index for length `len`: a negative index wraps once
from the end. -/
def npIndex (len : Nat) (i : ℤ) : ℤ := if i < 0 then (len : ℤ) + i else i

/-- numpy array indexing `xs[i]` with a (possibly negative) integer index:
out of range yields `none` (which the pipeline turns into an IndexError). -/
def npGet {α : Type} (xs : List α) (i : ℤ) : Option α :=
  if 0 ≤ npIndex xs.length i then xs[(npIndex xs.length i).toNat]? else none

/-- The timeline-assembly loop of src/main.py lines 201-221: for each beat
time, convert to a frame index, look the frame's cluster up in `labels`
(IndexError when out of range), look the cluster up in the table (skip the
beat when absent), and emit `{round(t,2), key, chords[0]}` (IndexError when
the chord list is empty). -/
def assembleTimeline (labels : List Nat) (sr : Nat) :
    List ℚ → Except PipelineError (List TimelineEntry)
  | [] => .ok []
  | t :: rest =>
    match npGet labels (time_to_frames t sr) with
    | none => .error .indexError
    | some cluster =>
      match clusterMapGet cluster with
      | none => assembleTimeline labels sr rest
      | some info =>
        match info.chords with
        | [] => .error .indexError
        | chord :: _ =>
          match assembleTimeline labels sr rest with
          | .error e => .error e
          | .ok entries =>
            .ok ({ time := round2 t, key := info.key, chord := chord } :: entries)

/-- The external collaborators of the pipeline (librosa and sklearn), each a
function that may fail.  `pca_fit_transform` takes n_components and the
effective random seed (the source leaves PCA's random_state unset at
src/main.py line 189, so the ambient RNG state reaches it — sklearn's auto
solver runs globally-seeded randomized SVD on realistic input sizes);
`kmeans_fit_labels` takes n_clusters, n_init and the effective random seed
(the source fixes `random_state=42`, so the ambient nonce never reaches
it). -/
structure Env where
  load : String → Except PipelineError (Waveform × Nat)
  beat_track : Waveform → Nat → Except PipelineError (ℚ × List Nat)
  chroma_cqt : Waveform → Nat → Except PipelineError Mat
  mfcc : Waveform → Nat → Except PipelineError Mat
  tonnetz : Waveform → Nat → Except PipelineError Mat
  scaler_fit_transform : Mat → Except PipelineError Mat
  pca_fit_transform : Nat → Nat → Mat → Except PipelineError Mat
  kmeans_fit_labels : Nat → Nat → Nat → Mat → Except PipelineError (List Nat)

/-- The body of the `try` block of `analyze_giant_steps`
(src/main.py lines 160-221), stage by stage in source order.  `nonce` stands
for the ambient RNG state of this run; the source passes `random_state=42`
to KMeans, modelled as `Option.getD (some 42) nonce`, and passes no
random_state to PCA, modelled as `Option.getD none nonce` — the nonce
itself. -/
def analysisPipeline (env : Env) (nonce : Nat) (audio_path : String) :
    Except PipelineError (List TimelineEntry) := do
  let (y, sr) ← env.load audio_path
  let (_tempo, beat_frames) ← env.beat_track y sr
  let beat_times := beat_frames.map (fun f => frames_to_time f sr)
  let chroma ← env.chroma_cqt y sr
  let mfcc ← env.mfcc y sr
  let tonnetz ← env.tonnetz y sr
  let chroma_mfcc_tonnetz := chroma ++ mfcc ++ tonnetz
  let norm ← env.scaler_fit_transform chroma_mfcc_tonnetz.transpose
  let chroma_mfcc_tonnetz_norm := norm.transpose
  let n_clusters := CLUSTER_MAP.length
  let seed := Option.getD (some 42) nonce
  let pca_seed := Option.getD (none : Option Nat) nonce
  let reduced ← env.pca_fit_transform 10 pca_seed chroma_mfcc_tonnetz_norm.transpose
  let labels ← env.kmeans_fit_labels n_clusters 10 seed reduced
  assembleTimeline labels sr beat_times

/-- `analyze_giant_steps` (src/main.py lines 159-225): the pipeline inside a
broad recovery boundary that converts any failure into the empty list. -/
def analyze_giant_steps (env : Env) (nonce : Nat) (audio_path : String) :
    List TimelineEntry :=
  match analysisPipeline env nonce audio_path with
  | .ok changes => changes
  | .error _ => []

/-! Lemmas about the rounding function. -/

lemma roundHalfEven_bounds (q : ℚ) :
    ⌊q⌋ ≤ roundHalfEven q ∧ roundHalfEven q ≤ ⌊q⌋ + 1 := by
  unfold roundHalfEven
  split_ifs <;> omega

lemma roundHalfEven_mono {x y : ℚ} (h : x ≤ y) :
    roundHalfEven x ≤ roundHalfEven y := by
  have hf : ⌊x⌋ ≤ ⌊y⌋ := Int.floor_le_floor h
  rcases lt_or_eq_of_le hf with hlt | heq
  · have hx := (roundHalfEven_bounds x).2
    have hy := (roundHalfEven_bounds y).1
    omega
  · unfold roundHalfEven
    rw [← heq]
    have hr : x - ⌊x⌋ ≤ y - ⌊x⌋ := by linarith
    split_ifs <;> first | omega | linarith

lemma roundHalfEven_intCast (k : ℤ) : roundHalfEven (k : ℚ) = k := by
  unfold roundHalfEven
  rw [Int.floor_intCast]
  norm_num

lemma round2_mono {x y : ℚ} (h : x ≤ y) : round2 x ≤ round2 y := by
  unfold round2
  have h100 : x * 100 ≤ y * 100 := by nlinarith
  have hc : ((roundHalfEven (x * 100) : ℤ) : ℚ) ≤ ((roundHalfEven (y * 100) : ℤ) : ℚ) := by
    exact_mod_cast roundHalfEven_mono h100
  linarith

lemma round2_zero : round2 0 = 0 := by
  norm_num [round2, roundHalfEven]

/-! Lemmas about frame/time conversion and numpy indexing. -/

lemma frames_to_time_zero (sr : Nat) : frames_to_time 0 sr = 0 := by
  simp [frames_to_time]

lemma time_to_frames_frames_to_time (f sr : Nat) (h : sr ≠ 0) :
    time_to_frames (frames_to_time f sr) sr = f := by
  unfold time_to_frames frames_to_time qtrunc
  have hsr : (sr : ℚ) ≠ 0 := by exact_mod_cast h
  have h1 : (f * 512 : ℚ) / sr * sr = ((f * 512 : ℕ) : ℚ) := by
    push_cast
    field_simp
  rw [h1]
  rw [if_pos (by positivity)]
  rw [Int.floor_natCast]
  have h2 : ((f * 512 : ℕ) : ℤ) = (f : ℤ) * 512 := by push_cast; ring
  rw [h2]
  exact Int.mul_fdiv_cancel _ (by norm_num)

lemma npGet_mem {α : Type} {xs : List α} {i : ℤ} {a : α}
    (h : npGet xs i = some a) : a ∈ xs := by
  unfold npGet at h
  split_ifs at h
  exact List.getElem?_mem h

lemma npGet_none_of_ge {α : Type} (xs : List α) (i : ℤ)
    (h : (xs.length : ℤ) ≤ i) : npGet xs i = none := by
  have hi : ¬ i < 0 := by omega
  unfold npGet npIndex
  rw [if_neg hi, if_pos (by omega)]
  apply List.getElem?_eq_none
  omega

/-! Lemmas about the static table. -/

lemma CLUSTER_MAP_length : CLUSTER_MAP.length = 12 := rfl

lemma table_entries_wf : ∀ c, c < CLUSTER_MAP.length →
    ∃ e, clusterMapGet c = some e ∧
      e.key ≠ "" ∧ e.chords ≠ [] ∧ e.chords.headD "" ≠ "" := by
  intro c hc
  rw [CLUSTER_MAP_length] at hc
  interval_cases c <;> exact ⟨_, rfl, by decide, by decide, by decide⟩

/-! Lemmas about the timeline-assembly loop. -/

lemma assembleTimeline_nil (labels : List Nat) (sr : Nat) :
    assembleTimeline labels sr [] = .ok [] := rfl

lemma assembleTimeline_cons (labels : List Nat) (sr : Nat) (t : ℚ) (rest : List ℚ) :
    assembleTimeline labels sr (t :: rest) =
      match npGet labels (time_to_frames t sr) with
      | none => .error .indexError
      | some cluster =>
        match clusterMapGet cluster with
        | none => assembleTimeline labels sr rest
        | some info =>
          match info.chords with
          | [] => .error .indexError
          | chord :: _ =>
            match assembleTimeline labels sr rest with
            | .error e => .error e
            | .ok entries =>
              .ok ({ time := round2 t, key := info.key, chord := chord } :: entries) := rfl

lemma assembleTimeline_ok_spec (labels : List Nat) (sr : Nat) :
    ∀ bts cs, assembleTimeline labels sr bts = .ok cs →
      cs.length ≤ bts.length ∧ ∀ e ∈ cs, ∃ t ∈ bts, e.time = round2 t := by
  intro bts
  induction bts with
  | nil =>
    intro cs h
    rw [assembleTimeline_nil] at h
    cases h
    simp
  | cons t rest ih =>
    intro cs h
    rw [assembleTimeline_cons] at h
    cases hn : npGet labels (time_to_frames t sr) with
    | none => simp only [hn] at h; exact Except.noConfusion h
    | some cluster =>
      cases hc : clusterMapGet cluster with
      | none =>
        simp only [hn, hc] at h
        obtain ⟨hlen, hmem⟩ := ih cs h
        refine ⟨Nat.le_succ_of_le hlen, fun e he => ?_⟩
        obtain ⟨u, hu, hue⟩ := hmem e he
        exact ⟨u, List.mem_cons_of_mem _ hu, hue⟩
      | some info =>
        cases hch : info.chords with
        | nil => simp only [hn, hc, hch] at h; exact Except.noConfusion h
        | cons chord tl =>
          cases hr : assembleTimeline labels sr rest with
          | error e => simp only [hn, hc, hch, hr] at h; exact Except.noConfusion h
          | ok entries =>
            simp only [hn, hc, hch, hr] at h
            cases h
            obtain ⟨hlen, hmem⟩ := ih entries hr
            refine ⟨Nat.succ_le_succ hlen, fun e he => ?_⟩
            rcases List.mem_cons.mp he with rfl | he'
            · exact ⟨t, List.mem_cons_self _ _, rfl⟩
            · obtain ⟨u, hu, hue⟩ := hmem e he'
              exact ⟨u, List.mem_cons_of_mem _ hu, hue⟩

lemma assembleTimeline_ok_sublist (labels : List Nat) (sr : Nat) :
    ∀ bts cs, assembleTimeline labels sr bts = .ok cs →
      ∃ sub : List ℚ, sub.Sublist bts ∧
        cs.map TimelineEntry.time = sub.map round2 := by
  intro bts
  induction bts with
  | nil =>
    intro cs h
    rw [assembleTimeline_nil] at h
    cases h
    exact ⟨[], List.Sublist.refl _, rfl⟩
  | cons t rest ih =>
    intro cs h
    rw [assembleTimeline_cons] at h
    cases hn : npGet labels (time_to_frames t sr) with
    | none => simp only [hn] at h; exact Except.noConfusion h
    | some cluster =>
      cases hc : clusterMapGet cluster with
      | none =>
        simp only [hn, hc] at h
        obtain ⟨sub, hsub, hmap⟩ := ih cs h
        exact ⟨sub, hsub.cons t, hmap⟩
      | some info =>
        cases hch : info.chords with
        | nil => simp only [hn, hc, hch] at h; exact Except.noConfusion h
        | cons chord tl =>
          cases hr : assembleTimeline labels sr rest with
          | error e => simp only [hn, hc, hch, hr] at h; exact Except.noConfusion h
          | ok entries =>
            simp only [hn, hc, hch, hr] at h
            cases h
            obtain ⟨sub, hsub, hmap⟩ := ih entries hr
            refine ⟨t :: sub, hsub.cons₂ t, ?_⟩
            simp [hmap]

lemma assembleTimeline_ok_full (labels : List Nat) (sr : Nat)
    (hlab : ∀ l ∈ labels, l < CLUSTER_MAP.length) :
    ∀ bts cs, assembleTimeline labels sr bts = .ok cs →
      cs.length = bts.length := by
  intro bts
  induction bts with
  | nil =>
    intro cs h
    rw [assembleTimeline_nil] at h
    cases h
    rfl
  | cons t rest ih =>
    intro cs h
    rw [assembleTimeline_cons] at h
    cases hn : npGet labels (time_to_frames t sr) with
    | none => simp only [hn] at h; exact Except.noConfusion h
    | some cluster =>
      have hcl : cluster < CLUSTER_MAP.length := hlab cluster (npGet_mem hn)
      obtain ⟨info, hc, -, hchords, -⟩ := table_entries_wf cluster hcl
      cases hch : info.chords with
      | nil => exact absurd hch hchords
      | cons chord tl =>
        cases hr : assembleTimeline labels sr rest with
        | error e => simp only [hn, hc, hch, hr] at h; exact Except.noConfusion h
        | ok entries =>
          simp only [hn, hc, hch, hr] at h
          cases h
          simpa using ih entries hr

lemma assembleTimeline_oob (labels : List Nat) (sr : Nat) :
    ∀ bts, (∃ t ∈ bts, (labels.length : ℤ) ≤ time_to_frames t sr) →
      ∃ e, assembleTimeline labels sr bts = .error e := by
  intro bts
  induction bts with
  | nil => rintro ⟨t, ht, -⟩; cases ht
  | cons t0 rest ih =>
    rintro ⟨t, ht, hge⟩
    rcases List.mem_cons.mp ht with rfl | ht'
    · exact ⟨.indexError, by
        rw [assembleTimeline_cons]
        simp only [npGet_none_of_ge labels _ hge]⟩
    · obtain ⟨e, he⟩ := ih ⟨t, ht', hge⟩
      rw [assembleTimeline_cons]
      cases hn : npGet labels (time_to_frames t0 sr) with
      | none => exact ⟨.indexError, by simp only [hn]⟩
      | some cluster =>
        cases hc : clusterMapGet cluster with
        | none => exact ⟨e, by simp only [hn, hc, he]⟩
        | some info =>
          cases hch : info.chords with
          | nil => exact ⟨.indexError, by simp only [hn, hc, hch]⟩
          | cons chord tl => exact ⟨e, by simp only [hn, hc, hch, he]⟩

/-! Lemmas about the pipeline's control flow. -/

lemma analysisPipeline_reach (env : Env) (nonce : Nat) (p : String)
    (y : Waveform) (sr : Nat) (tempo : ℚ) (bf : List Nat) (ch mf tz nm rd : Mat)
    (h1 : env.load p = .ok (y, sr))
    (h2 : env.beat_track y sr = .ok (tempo, bf))
    (h3 : env.chroma_cqt y sr = .ok ch)
    (h4 : env.mfcc y sr = .ok mf)
    (h5 : env.tonnetz y sr = .ok tz)
    (h6 : env.scaler_fit_transform (ch ++ mf ++ tz).transpose = .ok nm)
    (h7 : env.pca_fit_transform 10 nonce nm.transpose.transpose = .ok rd) :
    analysisPipeline env nonce p =
      (env.kmeans_fit_labels CLUSTER_MAP.length 10 42 rd).bind
        (fun labels => assembleTimeline labels sr
          (bf.map (fun f => frames_to_time f sr))) := by
  unfold analysisPipeline
  simp only [bind, Except.bind, h1, h2, h3, h4, h5, h6, Option.getD_some,
    Option.getD_none] at *
  simp only [bind, Except.bind, h7]

lemma analyze_of_pipeline_error (env : Env) (nonce : Nat) (p : String)
    (e : PipelineError) (h : analysisPipeline env nonce p = .error e) :
    analyze_giant_steps env nonce p = [] := by
  unfold analyze_giant_steps
  rw [h]

lemma analyze_of_pipeline_ok (env : Env) (nonce : Nat) (p : String)
    (cs : List TimelineEntry) (h : analysisPipeline env nonce p = .ok cs) :
    analyze_giant_steps env nonce p = cs := by
  unfold analyze_giant_steps
  rw [h]

lemma time_to_frames_zero (sr : Nat) : time_to_frames 0 sr = 0 := by
  unfold time_to_frames qtrunc
  norm_num

/-! Concrete collaborator environments used to witness the theorems. -/

/-- An environment whose audio loading fails, as for a missing file. -/
def failEnv : Env where
  load := fun _ => .error .loadFailure
  beat_track := fun _ _ => .error .analysisFailure
  chroma_cqt := fun _ _ => .error .analysisFailure
  mfcc := fun _ _ => .error .analysisFailure
  tonnetz := fun _ _ => .error .analysisFailure
  scaler_fit_transform := fun _ => .error .analysisFailure
  pca_fit_transform := fun _ _ _ => .error .analysisFailure
  kmeans_fit_labels := fun _ _ _ _ => .error .analysisFailure

/-- A small fully successful environment: two feature frames, no beats. -/
def okEnv : Env where
  load := fun _ => .ok ([0, 0], 44100)
  beat_track := fun _ _ => .ok (120, [])
  chroma_cqt := fun _ _ => .ok []
  mfcc := fun _ _ => .ok []
  tonnetz := fun _ _ => .ok []
  scaler_fit_transform := fun m => .ok m
  pca_fit_transform := fun _ _ m => .ok m
  kmeans_fit_labels := fun _ _ _ _ => .ok [0, 5]

/-- A degenerate reduced matrix: twelve identical frames, hence a single
distinct frame value. -/
def degenReduced : Mat := List.replicate 12 [0]

/-- An environment whose dimensionality reduction yields `degenReduced`
(twelve coincident points) and whose clusterer proceeds, labelling every
frame 0 — consistent with sklearn KMeans, which only errors when the sample
count (not the distinct-sample count) is below n_clusters. -/
def degenEnv : Env where
  load := fun _ => .ok ([0], 44100)
  beat_track := fun _ _ => .ok (120, [0])
  chroma_cqt := fun _ _ => .ok []
  mfcc := fun _ _ => .ok []
  tonnetz := fun _ _ => .ok []
  scaler_fit_transform := fun _ => .ok []
  pca_fit_transform := fun _ _ _ => .ok degenReduced
  kmeans_fit_labels := fun _ _ _ m => .ok (List.replicate m.length 0)

/-- An environment whose clustering stage itself fails. -/
def kfailEnv : Env where
  load := fun _ => .ok ([0], 44100)
  beat_track := fun _ _ => .ok (120, [0])
  chroma_cqt := fun _ _ => .ok []
  mfcc := fun _ _ => .ok []
  tonnetz := fun _ _ => .ok []
  scaler_fit_transform := fun _ => .ok []
  pca_fit_transform := fun _ _ _ => .ok []
  kmeans_fit_labels := fun _ _ _ _ => .error .valueError

/-- An environment with one feature frame but a beat at frame 5, so the
beat's frame index is out of range for the label array. -/
def oobEnv : Env where
  load := fun _ => .ok ([0], 44100)
  beat_track := fun _ _ => .ok (120, [5])
  chroma_cqt := fun _ _ => .ok []
  mfcc := fun _ _ => .ok []
  tonnetz := fun _ _ => .ok []
  scaler_fit_transform := fun _ => .ok []
  pca_fit_transform := fun _ _ _ => .ok [[0]]
  kmeans_fit_labels := fun _ _ _ _ => .ok [0]

/-- An environment whose dimensionality reduction depends on the effective
random seed it is handed — as sklearn's PCA does on realistic input sizes,
where the auto solver runs randomized SVD seeded from the global numpy RNG
when random_state is None: the reduced matrix (twelve frames, each equal to
the seed) and hence the cluster labels vary with the ambient RNG state,
while the clusterer itself is a deterministic function of its input. -/
def ndEnv : Env where
  load := fun _ => .ok ([0], 44100)
  beat_track := fun _ _ => .ok (120, [0])
  chroma_cqt := fun _ _ => .ok []
  mfcc := fun _ _ => .ok []
  tonnetz := fun _ _ => .ok []
  scaler_fit_transform := fun _ => .ok []
  pca_fit_transform := fun _ seed _ => .ok (List.replicate 12 [(seed : ℚ)])
  kmeans_fit_labels := fun _ _ _ m =>
    .ok (m.map (fun row => if row.headD 0 = 0 then 0 else 1))

lemma nd_pipeline_zero : analysisPipeline ndEnv 0 "giant_steps.mp3" =
    .ok [{ time := 0, key := "C", chord := "Cmaj7" }] := by
  rw [analysisPipeline_reach ndEnv 0 "giant_steps.mp3" [0] 44100 120 [0]
    [] [] [] [] (List.replicate 12 [(0 : ℚ)]) rfl rfl rfl rfl rfl rfl rfl]
  show assembleTimeline ((List.replicate 12 [(0 : ℚ)]).map
    (fun row => if row.headD 0 = 0 then 0 else 1)) 44100
    ([0].map (fun f => frames_to_time f 44100)) = _
  have hlabels : (List.replicate 12 [(0 : ℚ)]).map
      (fun row => if row.headD 0 = 0 then 0 else 1) = List.replicate 12 0 := by
    rw [List.map_replicate]
    norm_num
  rw [hlabels, List.map_singleton, frames_to_time_zero, assembleTimeline_cons,
    time_to_frames_zero]
  norm_num [npGet, npIndex, List.replicate, clusterMapGet, CLUSTER_MAP,
    assembleTimeline_nil, round2_zero]

lemma nd_pipeline_one : analysisPipeline ndEnv 1 "giant_steps.mp3" =
    .ok [{ time := 0, key := "G", chord := "Gmaj7" }] := by
  rw [analysisPipeline_reach ndEnv 1 "giant_steps.mp3" [0] 44100 120 [0]
    [] [] [] [] (List.replicate 12 [(1 : ℚ)]) rfl rfl rfl rfl rfl rfl rfl]
  show assembleTimeline ((List.replicate 12 [(1 : ℚ)]).map
    (fun row => if row.headD 0 = 0 then 0 else 1)) 44100
    ([0].map (fun f => frames_to_time f 44100)) = _
  have hlabels : (List.replicate 12 [(1 : ℚ)]).map
      (fun row => if row.headD 0 = 0 then 0 else 1) = List.replicate 12 1 := by
    rw [List.map_replicate]
    norm_num
  have hn : npGet (List.replicate 12 1) 0 = some 1 := rfl
  have hc : clusterMapGet 1 = some ⟨"G",
    ["Gmaj7", "D7#9", "B7alt", "Abmaj7", "C#dim7", "F7b13"], "Dominant"⟩ := rfl
  rw [hlabels, List.map_singleton, frames_to_time_zero, assembleTimeline_cons,
    time_to_frames_zero]
  simp only [hn, hc, assembleTimeline_nil, round2_zero]

lemma degen_pipeline : analysisPipeline degenEnv 0 "giant_steps.mp3" =
    .ok [{ time := 0, key := "C", chord := "Cmaj7" }] := by
  rw [analysisPipeline_reach degenEnv 0 "giant_steps.mp3" [0] 44100 120 [0]
    [] [] [] [] degenReduced rfl rfl rfl rfl rfl rfl rfl]
  show assembleTimeline (List.replicate degenReduced.length 0) 44100
    ([0].map (fun f => frames_to_time f 44100)) = _
  rw [List.map_singleton, frames_to_time_zero, assembleTimeline_cons,
    time_to_frames_zero]
  norm_num [npGet, npIndex, List.replicate, clusterMapGet, CLUSTER_MAP,
    assembleTimeline_nil, round2_zero]

lemma analysisPipeline_ok_inv (env : Env) (nonce : Nat) (p : String)
    (y : Waveform) (sr : Nat) (tempo : ℚ) (bf : List Nat) (cs : List TimelineEntry)
    (h1 : env.load p = .ok (y, sr))
    (h2 : env.beat_track y sr = .ok (tempo, bf))
    (h : analysisPipeline env nonce p = .ok cs) :
    ∃ labels, assembleTimeline labels sr
      (bf.map (fun f => frames_to_time f sr)) = .ok cs := by
  unfold analysisPipeline at h
  simp only [bind, Except.bind, h1, h2, Option.getD_some, Option.getD_none] at h
  cases h3 : env.chroma_cqt y sr with
  | error e => simp only [h3] at h; exact Except.noConfusion h
  | ok ch =>
    simp only [h3] at h
    cases h4 : env.mfcc y sr with
    | error e => simp only [h4] at h; exact Except.noConfusion h
    | ok mf =>
      simp only [h4] at h
      cases h5 : env.tonnetz y sr with
      | error e => simp only [h5] at h; exact Except.noConfusion h
      | ok tz =>
        simp only [h5] at h
        cases h6 : env.scaler_fit_transform ((ch ++ mf ++ tz).transpose) with
        | error e => simp only [h6] at h; exact Except.noConfusion h
        | ok nm =>
          simp only [h6] at h
          cases h7 : env.pca_fit_transform 10 nonce (nm.transpose.transpose) with
          | error e => simp only [h7] at h; exact Except.noConfusion h
          | ok rd =>
            simp only [h7] at h
            cases h8 : env.kmeans_fit_labels CLUSTER_MAP.length 10 42 rd with
            | error e => simp only [h8] at h; exact Except.noConfusion h
            | ok labels =>
              simp only [h8] at h
              exact ⟨labels, h⟩

/-! The claims. -/

/-- C1: any failure raised inside the analysis pipeline causes
`analyze_giant_steps` to return the empty list, and on success the full
assembled timeline is returned unchanged, so no exception escapes the call
and no partial timeline is ever returned on failure. -/
theorem empty_on_failure (env : Env) (nonce : Nat) (p : String) :
    (∀ e, analysisPipeline env nonce p = .error e →
      analyze_giant_steps env nonce p = []) ∧
    (∀ cs, analysisPipeline env nonce p = .ok cs →
      analyze_giant_steps env nonce p = cs) :=
  ⟨fun e h => analyze_of_pipeline_error env nonce p e h,
   fun cs h => analyze_of_pipeline_ok env nonce p cs h⟩

/-- C1 witness: in an environment whose audio loading fails, the pipeline
fails and `analyze_giant_steps` returns the empty list. -/
theorem empty_on_failure_witness :
    analysisPipeline failEnv 0 "giant_steps.mp3" = .error .loadFailure ∧
    analyze_giant_steps failEnv 0 "giant_steps.mp3" = [] :=
  ⟨rfl, (empty_on_failure failEnv 0 "giant_steps.mp3").1 .loadFailure rfl⟩

/-- C2: the determinism claim fails on the code: the source pins
random_state=42 only for KMeans and leaves PCA's random_state unset
(src/main.py line 189), so the ambient RNG state reaches the dimensionality
reduction.  With a reduction collaborator whose output depends on that state
— as sklearn's auto solver does on realistic input sizes, running
randomized SVD seeded from the global numpy RNG — two runs on the same
audio path and the same fixed configuration return different TimelineEntry
sequences. -/
theorem pca_nondeterminism :
    analyze_giant_steps ndEnv 0 "giant_steps.mp3" =
      [{ time := 0, key := "C", chord := "Cmaj7" }] ∧
    analyze_giant_steps ndEnv 1 "giant_steps.mp3" =
      [{ time := 0, key := "G", chord := "Gmaj7" }] ∧
    analyze_giant_steps ndEnv 0 "giant_steps.mp3" ≠
      analyze_giant_steps ndEnv 1 "giant_steps.mp3" := by
  have h0 := analyze_of_pipeline_ok ndEnv 0 "giant_steps.mp3" _ nd_pipeline_zero
  have h1 := analyze_of_pipeline_ok ndEnv 1 "giant_steps.mp3" _ nd_pipeline_one
  refine ⟨h0, h1, ?_⟩
  rw [h0, h1]
  intro hEq
  injection hEq with hhead _
  injection hhead with _ hkey _
  exact absurd hkey (by decide)

/-- C3: for every cluster id below 12 the table lookup succeeds with a
non-empty key and a non-empty chord list whose head is non-empty, and the
assembly loop emits exactly the first chord of the cluster's ordered chord
list (later entries are never selected). -/
theorem chord_mapper_total :
    (∀ c, c < CLUSTER_MAP.length → ∃ e, clusterMapGet c = some e ∧
      e.key ≠ "" ∧ e.chords ≠ [] ∧ e.chords.headD "" ≠ "") ∧
    (∀ labels sr t rest c info cs,
      npGet labels (time_to_frames t sr) = some c →
      clusterMapGet c = some info →
      assembleTimeline labels sr (t :: rest) = .ok cs →
      ∃ others, cs = ({ time := round2 t, key := info.key,
                        chord := info.chords.headD "" } : TimelineEntry)
        :: others) := by
  refine ⟨table_entries_wf, ?_⟩
  intro labels sr t rest c info cs hn hc h
  rw [assembleTimeline_cons] at h
  cases hch : info.chords with
  | nil => simp only [hn, hc, hch] at h; exact Except.noConfusion h
  | cons chord tl =>
    cases hr : assembleTimeline labels sr rest with
    | error e => simp only [hn, hc, hch, hr] at h; exact Except.noConfusion h
    | ok entries =>
      simp only [hn, hc, hch, hr] at h
      cases h
      exact ⟨entries, rfl⟩

/-- C3 witness: cluster 0 resolves to key "C" with first chord "Cmaj7", and
an assembly step over one beat at time 0 emits exactly that chord. -/
theorem chord_mapper_total_witness :
    (∃ e, clusterMapGet 0 = some e ∧
      e.key ≠ "" ∧ e.chords ≠ [] ∧ e.chords.headD "" ≠ "") ∧
    (∃ others, [({ time := round2 0, key := "C", chord := "Cmaj7" } :
        TimelineEntry)] =
      ({ time := round2 0, key := "C", chord := "Cmaj7" } : TimelineEntry)
        :: others) := by
  refine ⟨chord_mapper_total.1 0 (by decide), ?_⟩
  exact chord_mapper_total.2 [0] 44100 0 []
    0 ⟨"C", ["Cmaj7", "G7alt", "A7#11", "Ebmaj7", "F#dim7", "Bb7sus4"], "Tonic"⟩ _
    (by rw [time_to_frames_zero]; rfl) rfl
    (by rw [assembleTimeline_cons, time_to_frames_zero]; rfl)

/-- C4 counterexample: with the reduced matrix consisting of twelve identical
frames (a single distinct frame, fewer than the cluster count 12) and a
clustering collaborator that proceeds on such input — as sklearn's KMeans
does whenever the sample count is at least n_clusters — the pipeline is NOT
guarded: it completes successfully and emits a non-empty timeline instead of
failing with an "InsufficientData" condition. -/
theorem kmeans_guard_cex :
    degenReduced.dedup.length = 1 ∧
     1 < CLUSTER_MAP.length ∧
    analysisPipeline degenEnv 0 "giant_steps.mp3" =
      .ok [{ time := 0, key := "C", chord := "Cmaj7" }] ∧
    analyze_giant_steps degenEnv 0 "giant_steps.mp3" =
      [{ time := 0, key := "C", chord := "Cmaj7" }] := by
  refine ⟨?_, by norm_num [CLUSTER_MAP_length], degen_pipeline,
    analyze_of_pipeline_ok _ _ _ _ degen_pipeline⟩
  rw [show degenReduced = List.replicate 12 [0] from rfl,
    List.replicate_dedup (by norm_num)]
  rfl

/-- C4 amended: the code contains no dedicated "InsufficientData" guard:
when the cluster count exceeds only the number of distinct frames the
clustering stage may proceed and a timeline is produced, while any error the
clustering collaborator itself raises (as sklearn does when the cluster
count exceeds the total number of frames) propagates to the recovery
boundary, which returns the empty list. -/
theorem clustering_failure_empty (env : Env) (nonce : Nat) (p : String)
    (y : Waveform) (sr : Nat) (tempo : ℚ) (bf : List Nat) (ch mf tz nm rd : Mat)
    (e : PipelineError)
    (h1 : env.load p = .ok (y, sr))
    (h2 : env.beat_track y sr = .ok (tempo, bf))
    (h3 : env.chroma_cqt y sr = .ok ch)
    (h4 : env.mfcc y sr = .ok mf)
    (h5 : env.tonnetz y sr = .ok tz)
    (h6 : env.scaler_fit_transform (ch ++ mf ++ tz).transpose = .ok nm)
    (h7 : env.pca_fit_transform 10 nonce nm.transpose.transpose = .ok rd)
    (h8 : env.kmeans_fit_labels CLUSTER_MAP.length 10 42 rd = .error e) :
    analyze_giant_steps env nonce p = [] := by
  apply analyze_of_pipeline_error env nonce p e
  rw [analysisPipeline_reach env nonce p y sr tempo bf ch mf tz nm rd
    h1 h2 h3 h4 h5 h6 h7, h8]
  rfl

/-- C4 amended witness: a clustering failure yields the empty list. -/
theorem clustering_failure_empty_witness :
    kfailEnv.kmeans_fit_labels CLUSTER_MAP.length 10 42 [] =
      .error .valueError ∧
    analyze_giant_steps kfailEnv 0 "giant_steps.mp3" = [] :=
  ⟨rfl, clustering_failure_empty kfailEnv 0 "giant_steps.mp3" [0] 44100 120 [0]
    [] [] [] [] [] .valueError rfl rfl rfl rfl rfl rfl rfl rfl⟩

/-- C5: the returned timeline never has more entries than the beat grid, and
every emitted entry's time is the two-decimal rounding of some beat time
(no entry is emitted for anything other than a beat). -/
theorem timeline_length_le (env : Env) (nonce : Nat) (p : String)
    (y : Waveform) (sr : Nat) (tempo : ℚ) (bf : List Nat)
    (h1 : env.load p = .ok (y, sr))
    (h2 : env.beat_track y sr = .ok (tempo, bf)) :
    (analyze_giant_steps env nonce p).length ≤ bf.length ∧
    ∀ en ∈ analyze_giant_steps env nonce p,
      ∃ f ∈ bf, en.time = round2 (frames_to_time f sr) := by
  cases hpl : analysisPipeline env nonce p with
  | error e =>
    rw [analyze_of_pipeline_error env nonce p e hpl]
    simp
  | ok cs =>
    rw [analyze_of_pipeline_ok env nonce p cs hpl]
    obtain ⟨labels, hasm⟩ :=
      analysisPipeline_ok_inv env nonce p y sr tempo bf cs h1 h2 hpl
    obtain ⟨hlen, hmem⟩ := assembleTimeline_ok_spec labels sr _ cs hasm
    refine ⟨by simpa using hlen, fun en hen => ?_⟩
    obtain ⟨t, ht, hte⟩ := hmem en hen
    obtain ⟨f, hf, rfl⟩ := List.mem_map.mp ht
    exact ⟨f, hf, hte⟩

/-- C5 witness: with a successfully loaded input and an empty beat grid the
returned timeline is no longer than the beat grid. -/
theorem timeline_length_le_witness :
    okEnv.load "giant_steps.mp3" = .ok ([0, 0], 44100) ∧
    (analyze_giant_steps okEnv 0 "giant_steps.mp3").length ≤
      ([] : List Nat).length :=
  ⟨rfl, (timeline_length_le okEnv 0 "giant_steps.mp3" [0, 0] 44100 120 []
    rfl rfl).1⟩

/-- C6: for a strictly increasing beat grid, the emitted entries mirror the
beat order (their times are the roundings of a sublist of the beats, in
order) and the emitted time values are sorted ascending. -/
theorem timeline_sorted (labels : List Nat) (sr : Nat) (bts : List ℚ)
    (cs : List TimelineEntry)
    (hsort : List.Sorted (fun a b => a < b) bts)
    (h : assembleTimeline labels sr bts = .ok cs) :
    (∃ sub : List ℚ, sub.Sublist bts ∧
      cs.map TimelineEntry.time = sub.map round2) ∧
    List.Sorted (fun a b => a ≤ b) (cs.map TimelineEntry.time) := by
  obtain ⟨sub, hsub, hmap⟩ := assembleTimeline_ok_sublist labels sr bts cs h
  refine ⟨⟨sub, hsub, hmap⟩, ?_⟩
  rw [hmap]
  exact List.Pairwise.map _ (fun a b hab => round2_mono hab.le)
    (hsort.sublist hsub)

/-- C6 witness: a single beat at time 0 yields a sorted one-entry timeline. -/
theorem timeline_sorted_witness :
    List.Sorted (fun a b => a < b) ([0] : List ℚ) ∧
    List.Sorted (fun a b => a ≤ b)
      (([({ time := round2 0, key := "C", chord := "Cmaj7" } :
        TimelineEntry)]).map TimelineEntry.time) := by
  have hs : List.Sorted (fun a b => a < b) ([0] : List ℚ) :=
    List.sorted_singleton 0
  exact ⟨hs, (timeline_sorted [0] 44100 [0] _ hs
    (by rw [assembleTimeline_cons, time_to_frames_zero]; rfl)).2⟩

/-- C7: when a beat's cluster id is absent from the static table, that beat
is skipped silently: assembling the beat list starting at that beat equals
assembling the remaining beats, so the run is not aborted and no entry is
emitted for that beat. -/
theorem defensive_skip (labels : List Nat) (sr : Nat) (t : ℚ) (rest : List ℚ)
    (cluster : Nat)
    (hn : npGet labels (time_to_frames t sr) = some cluster)
    (hc : clusterMapGet cluster = none) :
    assembleTimeline labels sr (t :: rest) = assembleTimeline labels sr rest := by
  rw [assembleTimeline_cons]
  simp only [hn, hc]

/-- C7 witness: label 99 is absent from the table and the corresponding beat
is skipped. -/
theorem defensive_skip_witness :
    clusterMapGet 99 = none ∧
    assembleTimeline [99] 44100 [0] = assembleTimeline [99] 44100 [] :=
  ⟨rfl, defensive_skip [99] 44100 0 [] 99 (by rw [time_to_frames_zero]; rfl) rfl⟩

/-- C8: the defensive skip branch is unreachable in a run whose labels all
lie below len(CLUSTER_MAP) = 12 (as KMeans guarantees): every such label is
present in the table, and a run that reaches assembly and completes without
an exception returns exactly one entry per beat. -/
theorem skip_branch_unreachable (env : Env) (nonce : Nat) (p : String)
    (y : Waveform) (sr : Nat) (tempo : ℚ) (bf : List Nat) (ch mf tz nm rd : Mat)
    (labels : List Nat) (cs : List TimelineEntry)
    (h1 : env.load p = .ok (y, sr))
    (h2 : env.beat_track y sr = .ok (tempo, bf))
    (h3 : env.chroma_cqt y sr = .ok ch)
    (h4 : env.mfcc y sr = .ok mf)
    (h5 : env.tonnetz y sr = .ok tz)
    (h6 : env.scaler_fit_transform (ch ++ mf ++ tz).transpose = .ok nm)
    (h7 : env.pca_fit_transform 10 nonce nm.transpose.transpose = .ok rd)
    (h8 : env.kmeans_fit_labels CLUSTER_MAP.length 10 42 rd = .ok labels)
    (hlab : ∀ l ∈ labels, l < CLUSTER_MAP.length)
    (h9 : assembleTimeline labels sr
      (bf.map (fun f => frames_to_time f sr)) = .ok cs) :
    (∀ l ∈ labels, (clusterMapGet l).isSome) ∧
    analyze_giant_steps env nonce p = cs ∧
    cs.length = bf.length := by
  refine ⟨fun l hl => ?_, ?_, ?_⟩
  · obtain ⟨e, he, -⟩ := table_entries_wf l (hlab l hl)
    rw [he]
    rfl
  · apply analyze_of_pipeline_ok
    rw [analysisPipeline_reach env nonce p y sr tempo bf ch mf tz nm rd
      h1 h2 h3 h4 h5 h6 h7, h8]
    exact h9
  · simpa using assembleTimeline_ok_full labels sr hlab _ cs h9

/-- C8 witness: a completed run with labels 0 and 5 (both below 12) and an
empty beat grid returns one entry per beat. -/
theorem skip_branch_unreachable_witness :
    (∀ l ∈ ([0, 5] : List Nat), l < CLUSTER_MAP.length) ∧
    analyze_giant_steps okEnv 0 "giant_steps.mp3" = [] ∧
    ([] : List TimelineEntry).length = ([] : List Nat).length :=
  ⟨by decide, (skip_branch_unreachable okEnv 0 "giant_steps.mp3" [0, 0] 44100
    120 [] [] [] [] [] [] [0, 5] [] rfl rfl rfl rfl rfl rfl rfl rfl
    (by decide) rfl).2⟩

/-- C9: if some beat time converts to a frame index at or beyond the number
of label frames, the label lookup fails with an IndexError that the outer
boundary catches, so the whole run returns the empty list — a single
out-of-range beat discards the entire timeline. -/
theorem oob_beat_discards (env : Env) (nonce : Nat) (p : String)
    (y : Waveform) (sr : Nat) (tempo : ℚ) (bf : List Nat) (ch mf tz nm rd : Mat)
    (labels : List Nat)
    (h1 : env.load p = .ok (y, sr))
    (h2 : env.beat_track y sr = .ok (tempo, bf))
    (h3 : env.chroma_cqt y sr = .ok ch)
    (h4 : env.mfcc y sr = .ok mf)
    (h5 : env.tonnetz y sr = .ok tz)
    (h6 : env.scaler_fit_transform (ch ++ mf ++ tz).transpose = .ok nm)
    (h7 : env.pca_fit_transform 10 nonce nm.transpose.transpose = .ok rd)
    (h8 : env.kmeans_fit_labels CLUSTER_MAP.length 10 42 rd = .ok labels)
    (hoob : ∃ t ∈ bf.map (fun f => frames_to_time f sr),
      (labels.length : ℤ) ≤ time_to_frames t sr) :
    analyze_giant_steps env nonce p = [] := by
  obtain ⟨e, he⟩ := assembleTimeline_oob labels sr _ hoob
  apply analyze_of_pipeline_error env nonce p e
  rw [analysisPipeline_reach env nonce p y sr tempo bf ch mf tz nm rd
    h1 h2 h3 h4 h5 h6 h7, h8]
  exact he

/-- C9 witness: one label frame but a beat at frame 5: the run returns []. -/
theorem oob_beat_discards_witness :
    (1 : ℤ) ≤ time_to_frames (frames_to_time 5 44100) 44100 ∧
    analyze_giant_steps oobEnv 0 "giant_steps.mp3" = [] := by
  have hb : (1 : ℤ) ≤ time_to_frames (frames_to_time 5 44100) 44100 := by
    rw [time_to_frames_frames_to_time 5 44100 (by norm_num)]
    norm_num
  exact ⟨hb, oob_beat_discards oobEnv 0 "giant_steps.mp3" [0] 44100 120 [5]
    [] [] [] [] [[0]] [0] rfl rfl rfl rfl rfl rfl rfl rfl
    ⟨frames_to_time 5 44100, by simp, hb⟩⟩

/-- C10: the two-decimal emission rounding is idempotent: re-rounding any
already-rounded time value is a no-op. -/
theorem round2_idempotent (t : ℚ) : round2 (round2 t) = round2 t := by
  unfold round2
  have h : ((roundHalfEven (t * 100) : ℚ) / 100) * 100 =
      (roundHalfEven (t * 100) : ℚ) := by
    field_simp
  rw [h, roundHalfEven_intCast]

end ColtraneChanges
